import Mathlib

/-!
Verification of the sparql-proxy repository against its specification.

The development shallowly embeds the server's `/sparql` request handler,
the two filesystem cache stores, the socket.io authentication middleware,
and (modelled from the spec, because the executor source is not present)
the query-splitting chunk executor.  External collaborators (the SPARQL
parser/generator, the MD5 digest, the cookie library's pair parser) are
parameters of the embedding; everything the repository itself computes is
translated directly from the source.
-/

namespace SparqlProxy

/-- A cache entry / job result: `{contentType, body}` as in the source. -/
structure Entry where
  contentType : String
  body : String
deriving DecidableEq, Repr

/-- Outcome of a filesystem read: the data, or an error carrying the
`error.code` string Node attaches to `fs` errors (`ENOENT`, `EACCES`, ...). -/
inductive FsRead (α : Type) where
  | ok (data : α)
  | err (code : String)
deriving DecidableEq, Repr

/-- Errors a cache-store `get` can surface: a filesystem error (with its
Node `error.code`) or a deserialization failure (which carries no code). -/
inductive GetError where
  | fsError (code : String)
  | deserError (msg : String)
deriving DecidableEq, Repr

/-- A filesystem path, modelled as its character list. -/
def joinPath : List (List Char) → List Char
  | [] => []
  | [s] => s
  | s :: rest => s ++ '/' :: joinPath rest

namespace FileStore

/-- The `get` of the file store in part_000: `readFile` then `deserialize`
inside one `try`; the `catch` returns `null` when `error.code === 'ENOENT'`
and rethrows every other error.  A deserialization error has no `code`
property, so it is always rethrown. -/
def get (read : FsRead String) (deserialize : String → Except String Entry) :
    Except GetError (Option Entry) :=
  match read with
  | .err code => if code = "ENOENT" then .ok none else .error (.fsError code)
  | .ok data =>
    match deserialize data with
    | .ok e => .ok (some e)
    | .error m => .error (.deserError m)

/-- The `getPath` of the file store in part_000:
`path.join(rootDir, key.slice(0, 2), key.slice(2, 4), key)`. -/
def getPath (root key : List Char) : List Char :=
  joinPath [root, key.take 2, (key.drop 2).take 2, key]

end FileStore

namespace FileStore001

/-- The `get` of the file store in part_001:
`denodeify(fs.readFile)(this.getPath(key)).catch(() => null)` — every read
error, whatever its code, is converted to `null`. -/
def get (read : FsRead String) : Except GetError (Option String) :=
  match read with
  | .ok data => .ok (some data)
  | .err _ => .ok none

/-- The `getPath` of the file store in part_001:
`path.join(this.rootDir, key[0], key[1], key)` — single-character fan-out. -/
def getPath (root key : List Char) : List Char :=
  joinPath [root, key.take 1, (key.drop 1).take 1, key]

end FileStore001

namespace SocketAuth

/-- Observable outcome of the socket.io authentication middleware. -/
inductive Outcome where
  | accepted
  | authError
  | thrown (msg : String)
deriving DecidableEq, Repr

/-- The cookie holding the admin secret (`cookieKey` in the source). -/
def cookieKey : String := "sparql-proxy-token"

/-- `cookie.parse` of the npm `cookie` library, an external collaborator:
on a string it parses pairs (the pair parsing itself is a parameter), and
applied to a non-string — `undefined`, when the request has no `Cookie`
header — it throws `TypeError: argument str must be a string`. -/
def cookieParse (parsePairs : String → List (String × String)) :
    Option String → Except String (List (String × String))
  | none => Except.error "argument str must be a string"
  | some s => Except.ok (parsePairs s)

/-- The `io.use` middleware of part_000: parse the `Cookie` header, then
accept when the `sparql-proxy-token` cookie equals the admin secret and
refuse with the `Authentication error` otherwise.  `cookie.parse` is
applied to the raw header with no guard, so a missing header makes the
middleware throw before any comparison happens. -/
def ioUse (parsePairs : String → List (String × String))
    (cookieHeader : Option String) (secret : String) : Outcome :=
  match cookieParse parsePairs cookieHeader with
  | .error m => .thrown m
  | .ok cookies =>
    if cookies.lookup cookieKey = some secret then .accepted else .authError

end SocketAuth

/-- HTTP method of a request to `/sparql`. -/
inductive Method where
  | GET
  | POST
  | OPTIONS
  | other (s : String)
deriving DecidableEq, Repr

/-- The parts of an express request the `/sparql` handler reads. -/
structure Request where
  method : Method
  queryParam : Option String
  isSparqlQuery : Bool
  textBody : String
  formQuery : Option String
  acceptHeader : Option String
  token : Option String
  ip : String
deriving DecidableEq, Repr

/-- The configuration fields the `/sparql` handler reads. -/
structure Config where
  backend : String
  compressor : String
  enableQuerySplitting : Bool
  jobTimeout : Nat
  maxLimit : Nat
  maxChunkLimit : Nat
deriving DecidableEq, Repr

/-- A parsed SPARQL operation as sparqljs returns it: its `type` field
(`query` for SELECT/ASK/CONSTRUCT/DESCRIBE, `update` for updates) and the
rest of the AST, opaque to the handler. -/
structure SparqlAst where
  type : String
  rest : String
deriving DecidableEq, Repr

/-- The external collaborators of the handler: `splitPreamble` of the
preamble package, sparqljs's parser and generator, and the MD5 hex digest
of the crypto module. -/
structure Externals where
  splitPreamble : String → String × String
  parse : String → Except String SparqlAst
  stringify : SparqlAst → String
  md5hex : String → String

/-- An error rejected from `queue.enqueue`: optional `statusCode` and
optional `data`, both falling back (`error.statusCode || 500`,
`error.data || 'ERROR'`) in the handler. -/
structure QueueError where
  statusCode : Option Nat
  data : Option String
deriving DecidableEq, Repr

/-- A response body: nothing sent, a plain string (`res.send('...')`), or
a JSON object `{message, data?}` (`res.send({message: ...})`). -/
inductive Body where
  | empty
  | text (s : String)
  | json (message : String) (data : Option String)
deriving DecidableEq, Repr

/-- An HTTP response as the handler assembles it: status, headers in the
order they are set, body. -/
structure Response where
  status : Nat
  headers : List (String × String)
  body : Body
deriving DecidableEq, Repr

/-- The `Job` constructed by the handler on a cache miss (the fields
passed to `new Job({...})`). -/
structure Job where
  backend : String
  rawQuery : String
  accept : String
  timeout : Nat
  ip : String
  enableQuerySplitting : Bool
  maxLimit : Nat
  maxChunkLimit : Nat
deriving DecidableEq, Repr

/-- Everything a single run of the handler does that the outside world can
observe: the response, the key passed to `cache.get`, the job passed to
`queue.enqueue`, the key/value passed to `cache.put`, and the logged
`cache.put` error if one occurred. -/
structure Output where
  response : Response
  cacheGetKey : Option String
  enqueuedJob : Option Job
  cachePut : Option (String × Entry)
  putError : Option String
deriving DecidableEq, Repr

/-- The default accept media type of the handler. -/
def defaultAccept : String := "application/sparql-results+json"

/-- Line 123 of part_000:
`(config.enableQuerySplitting ? null : req.headers.accept) || 'application/sparql-results+json'`.
JavaScript `||` treats the empty string like a missing header. -/
def computeAccept (enableQuerySplitting : Bool) (acceptHeader : Option String) :
    String :=
  match (if enableQuerySplitting then none else acceptHeader) with
  | some s => if s = "" then defaultAccept else s
  | none => defaultAccept

/-- Query extraction (lines 79-96 of part_000): GET takes the `query` URL
parameter; POST takes the raw body under `application/sparql-query` and
the `query` form field otherwise; OPTIONS and other methods never reach
the extraction. -/
def extractQuery (req : Request) : Option String :=
  match req.method with
  | .GET => req.queryParam
  | .POST => if req.isSparqlQuery then some req.textBody else req.formQuery
  | _ => none

/-- The job constructed on lines 147-156 of part_000. -/
def mkJob (cfg : Config) (rawQuery accept ip : String) : Job :=
  { backend := cfg.backend
    rawQuery := rawQuery
    accept := accept
    timeout := cfg.jobTimeout
    ip := ip
    enableQuerySplitting := cfg.enableQuerySplitting
    maxLimit := cfg.maxLimit
    maxChunkLimit := cfg.maxChunkLimit }

/-- Lines 127-178 of part_000, after the cache key is computed: consult
`cache.get` (`g` is its outcome; an error is logged and falls through to
the miss path), serve a hit with the stored content type, the stored body
and `X-Cache: hit`; otherwise enqueue the job (`e` is the queue outcome),
send the result, and write it behind to `cache.put` (`p` is the put
outcome, only ever logged). -/
def afterKey (cfg : Config) (req : Request) (q accept cacheKey : String)
    (g : Except String (Option Entry)) (e : Except QueueError Entry)
    (p : Except String Unit) : Output :=
  match g with
  | .ok (some cached) =>
    ⟨⟨200, [("Content-Type", cached.contentType), ("X-Cache", "hit")],
        .text cached.body⟩,
      some cacheKey, none, none, none⟩
  | _ =>
    match e with
    | .ok result =>
      ⟨⟨200, [("Content-Type", result.contentType)], .text result.body⟩,
        some cacheKey,
        some (mkJob cfg q accept req.ip),
        some (cacheKey, result),
        match p with | .ok _ => none | .error m => some m⟩
    | .error err =>
      ⟨⟨err.statusCode.getD 500, [], .text (err.data.getD "ERROR")⟩,
        some cacheKey,
        some (mkJob cfg q accept req.ip),
        none, none⟩

/-- Lines 98-125 of part_000 for a GET or POST request: require a
non-empty query, split the preamble, parse the remainder, gate on AST type
`query`, then compute the canonical text, the accept value, the MD5
fingerprint and the cache key, and hand over to the cache/queue stage. -/
def handleQuery (cfg : Config) (ext : Externals) (req : Request)
    (g : Except String (Option Entry)) (e : Except QueueError Entry)
    (p : Except String Unit) : Output :=
  match extractQuery req with
  | none => ⟨⟨400, [], .json "Query is required" none⟩, none, none, none, none⟩
  | some q =>
    if q = "" then
      ⟨⟨400, [], .json "Query is required" none⟩, none, none, none, none⟩
    else
      match ext.parse (ext.splitPreamble q).2 with
      | .error msg =>
        ⟨⟨400, [], .json "Query parse failed" (some msg)⟩,
          none, none, none, none⟩
      | .ok ast =>
        if ast.type = "query" then
          afterKey cfg req q
            (computeAccept cfg.enableQuerySplitting req.acceptHeader)
            (ext.md5hex ((ext.splitPreamble q).1 ++ ext.stringify ast ++
                "\x00" ++
                computeAccept cfg.enableQuerySplitting req.acceptHeader) ++
              "." ++ cfg.compressor)
            g e p
        else
          ⟨⟨400, [], .text "Query type not allowed"⟩, none, none, none, none⟩

/-- The whole `/sparql` handler (lines 64-179 of part_000): OPTIONS gets a
bare 200, unknown methods get 405 `Method Not Allowed`, GET and POST run
the query pipeline. -/
def handle (cfg : Config) (ext : Externals) (req : Request)
    (g : Except String (Option Entry)) (e : Except QueueError Entry)
    (p : Except String Unit) : Output :=
  match req.method with
  | .OPTIONS => ⟨⟨200, [], .empty⟩, none, none, none, none⟩
  | .other _ =>
    ⟨⟨405, [], .text "Method Not Allowed"⟩, none, none, none, none⟩
  | _ => handleQuery cfg ext req g e p

/-- Concrete externals whose parser accepts everything as a `query`
operation; the digest is modelled by the identity. -/
def extQ : Externals :=
  ⟨fun s => ("", s), fun s => Except.ok ⟨"query", s⟩, fun a => a.rest,
    fun s => s⟩

/-- Concrete externals whose parser reports an `update` operation. -/
def extU : Externals :=
  ⟨fun s => ("", s), fun s => Except.ok ⟨"update", s⟩, fun a => a.rest,
    fun s => s⟩

/-- Concrete externals whose parser always fails. -/
def extE : Externals :=
  ⟨fun s => ("", s), fun _ => Except.error "syntax error", fun a => a.rest,
    fun s => s⟩

/-- A concrete configuration with query splitting disabled. -/
def cfgW : Config := ⟨"http://backend", "raw", false, 300000, 10000, 1000⟩

/-- A concrete configuration with query splitting enabled. -/
def cfgSplit : Config := ⟨"http://backend", "raw", true, 300000, 10000, 1000⟩

/-- A concrete GET request with no Accept header. -/
def reqW : Request :=
  ⟨Method.GET, some "SELECT x", false, "", none, none, none, "::1"⟩

/-- A concrete GET request with `Accept: application/xml`. -/
def reqXml : Request :=
  ⟨Method.GET, some "SELECT x", false, "", none, some "application/xml",
    none, "::1"⟩

/-- A concrete cache entry / queue result. -/
def entryW : Entry := ⟨"text/plain", "ok"⟩

namespace ChunkExec

/-- A SPARQL JSON solution page: `head.vars` and `results.bindings`.
Bindings are abstract (`α`). -/
structure SolutionPage (α : Type) where
  head : List String
  bindings : List α
deriving DecidableEq, Repr

/-- Modelled from the spec: the backend's answer to one shard, for the
chunk executor whose source (`job.js`) is not under `src/`.  The backend
holds `rows` in a fixed order; a sub-query with `LIMIT`/`OFFSET` returns
the corresponding slice under the shared head. -/
def backendPage {α : Type} (bHead : List String) (rows : List α)
    (offset limit : Nat) : SolutionPage α :=
  ⟨bHead, (rows.drop offset).take limit⟩

/-- Modelled from the spec: the sequential shard loop of the chunk
executor.  While collected rows are fewer than the effective limit, the
next shard asks for `min(chunk, effectiveLimit - collected)` rows at the
current offset; offsets advance by `chunk`; a shard returning fewer rows
than requested exhausts the stream and stops the loop.  `fuel` bounds the
iteration count. -/
def chunkLoop {α : Type} (bHead : List String) (rows : List α)
    (chunk eff : Nat) : Nat → Nat → List α → List α
  | 0, _, acc => acc
  | fuel + 1, offset, acc =>
    if acc.length < eff then
      if (backendPage bHead rows offset
            (min chunk (eff - acc.length))).bindings.length <
          min chunk (eff - acc.length) then
        acc ++ (backendPage bHead rows offset
          (min chunk (eff - acc.length))).bindings
      else
        chunkLoop bHead rows chunk eff fuel (offset + chunk)
          (acc ++ (backendPage bHead rows offset
            (min chunk (eff - acc.length))).bindings)
    else acc

/-- Modelled from the spec: the chunk executor for a `SELECT` with user
limit `userLimit` and no user offset.  `effectiveLimit = min(userLimit,
maxLimit)`, shard size `chunk = min(maxChunkLimit, effectiveLimit)`; the
merged response takes the first shard's head and concatenates all shards'
bindings in shard order. -/
def chunkExecute {α : Type} (bHead : List String) (rows : List α)
    (userLimit maxLimitC maxChunkLimitC : Nat) : SolutionPage α :=
  ⟨(backendPage bHead rows 0
      (min maxChunkLimitC (min userLimit maxLimitC))).head,
    chunkLoop bHead rows (min maxChunkLimitC (min userLimit maxLimitC))
      (min userLimit maxLimitC) (min userLimit maxLimitC) 0 []⟩

end ChunkExec

end SparqlProxy

namespace SparqlProxy

/-- Claim C6 counterexample: the file store in part_001 converts a
non-missing read error (`EACCES`, a permission failure on an existing
file) to `null` instead of propagating it, contradicting the claim that
only a missing file yields `null`. -/
theorem c6_counterexample :
    FileStore001.get (FsRead.err "EACCES") = Except.ok none
      ∧ "EACCES" ≠ "ENOENT" :=
  ⟨rfl, by decide⟩

/-- Claim C6 (amended): the file store in part_000 behaves exactly as the
claim states — `get` returns `null` precisely when the file is missing
(`ENOENT`), every other filesystem error and every deserialization error
propagates — while the file store in part_001 returns `null` on every read
error, not only on a missing file. -/
theorem c6_get_amended (read : FsRead String)
    (deserialize : String → Except String Entry) :
    (FileStore.get read deserialize = Except.ok none ↔
      read = FsRead.err "ENOENT")
    ∧ (∀ c, c ≠ "ENOENT" →
        FileStore.get (FsRead.err c) deserialize =
          Except.error (GetError.fsError c))
    ∧ (∀ d m, deserialize d = Except.error m →
        FileStore.get (FsRead.ok d) deserialize =
          Except.error (GetError.deserError m))
    ∧ (∀ c, FileStore001.get (FsRead.err c) = Except.ok none) := by
  refine ⟨?_, ?_, ?_, ?_⟩
  · cases read with
    | ok data =>
      cases h : deserialize data <;> simp [FileStore.get, h]
    | err code =>
      by_cases hc : code = "ENOENT" <;> simp [FileStore.get, hc]
  · intro c hc
    simp [FileStore.get, hc]
  · intro d m hm
    simp [FileStore.get, hm]
  · intro c
    rfl

/-- Claim C6 witness: a concrete non-missing error (`EACCES`) propagates
from the part_000 store's `get`. -/
theorem c6_get_amended_witness :
    "EACCES" ≠ "ENOENT"
    ∧ FileStore.get (FsRead.err "EACCES") (fun _ => Except.error "bad") =
        Except.error (GetError.fsError "EACCES") :=
  ⟨by decide,

    (c6_get_amended (FsRead.err "EACCES") (fun _ => Except.error "bad")).2.1
      "EACCES" (by decide)⟩

/-- Claim C7 counterexample: the file store in part_001 maps the key
`abcdef` under root `rt` to `rt/a/b/abcdef` (single-character fan-out),
not to the claimed `rt/ab/cd/abcdef`. -/
theorem c7_counterexample :
    FileStore001.getPath "rt".toList "abcdef".toList = "rt/a/b/abcdef".toList
    ∧ "rt/a/b/abcdef".toList ≠ "rt/ab/cd/abcdef".toList := by
  decide

/-- Claim C7 (amended): the file store in part_000 maps every key of at
least four characters to `root/key[0:2]/key[2:4]/key`, the claimed
two-level two-character fan-out; the file store in part_001 instead maps
it to `root/key[0]/key[1]/key`, a single-character fan-out. -/
theorem c7_fanout_amended (root : List Char) (a b c d : Char)
    (rest : List Char) :
    FileStore.getPath root (a :: b :: c :: d :: rest) =
      root ++ '/' :: a :: b :: '/' :: c :: d :: '/' :: a :: b :: c :: d :: rest
    ∧ FileStore001.getPath root (a :: b :: c :: d :: rest) =
      root ++ '/' :: a :: '/' :: b :: '/' :: a :: b :: c :: d :: rest := by
  constructor <;> simp [FileStore.getPath, FileStore001.getPath, joinPath]

/-- Claim C10: a live-channel handshake with no `Cookie` header makes the
authentication middleware throw the cookie library's `TypeError` instead
of refusing the connection with the `Authentication error` used for wrong
credentials. -/
theorem c10_no_cookie_throws (parsePairs : String → List (String × String))
    (secret : String) :
    SocketAuth.ioUse parsePairs none secret =
      SocketAuth.Outcome.thrown "argument str must be a string"
    ∧ SocketAuth.ioUse parsePairs none secret ≠
        SocketAuth.Outcome.authError := by
  constructor <;> simp [SocketAuth.ioUse, SocketAuth.cookieParse]

/-- A request whose query extraction succeeds is a GET or a POST. -/
theorem extractQuery_method (req : Request) (q : String)
    (hq : extractQuery req = some q) :
    req.method = Method.GET ∨ req.method = Method.POST := by
  cases hM : req.method <;> simp [extractQuery, hM] at hq ⊢

/-- On GET and POST the handler runs the query pipeline. -/
theorem handle_GP (cfg : Config) (ext : Externals) (req : Request)
    (g : Except String (Option Entry)) (e : Except QueueError Entry)
    (p : Except String Unit)
    (hm : req.method = Method.GET ∨ req.method = Method.POST) :
    handle cfg ext req g e p = handleQuery cfg ext req g e p := by
  rcases hm with hm | hm <;> simp [handle, hm]

/-- When the query is present, parses, and is a `query` operation, the
handler reduces to the cache/queue stage with the canonical text, the
accept value and the cache key of the source. -/
theorem handle_pipeline (cfg : Config) (ext : Externals) (req : Request)
    (g : Except String (Option Entry)) (e : Except QueueError Entry)
    (p : Except String Unit) (q : String) (ast : SparqlAst)
    (hq : extractQuery req = some q) (hne : q ≠ "")
    (hparse : ext.parse (ext.splitPreamble q).2 = Except.ok ast)
    (htype : ast.type = "query") :
    handle cfg ext req g e p =
      afterKey cfg req q
        (computeAccept cfg.enableQuerySplitting req.acceptHeader)
        (ext.md5hex ((ext.splitPreamble q).1 ++ ext.stringify ast ++
            "\x00" ++
            computeAccept cfg.enableQuerySplitting req.acceptHeader) ++
          "." ++ cfg.compressor)
        g e p := by
  rw [handle_GP cfg ext req g e p (extractQuery_method req q hq)]
  simp [handleQuery, hq, hne, hparse, htype]

/-- The cache/queue stage always consults `cache.get` with the computed
cache key. -/
theorem afterKey_cacheGetKey (cfg : Config) (req : Request)
    (q accept cacheKey : String) (g : Except String (Option Entry))
    (e : Except QueueError Entry) (p : Except String Unit) :
    (afterKey cfg req q accept cacheKey g e p).cacheGetKey = some cacheKey := by
  rcases g with m | c
  · rcases e with err | r <;> rfl
  · rcases c with _ | cached
    · rcases e with err | r <;> rfl
    · rfl

/-- The response of the cache/queue stage does not depend on the outcome
of `cache.put`. -/
theorem afterKey_response_put (cfg : Config) (req : Request)
    (q accept cacheKey : String) (g : Except String (Option Entry))
    (e : Except QueueError Entry) (p p2 : Except String Unit) :
    (afterKey cfg req q accept cacheKey g e p).response =
      (afterKey cfg req q accept cacheKey g e p2).response := by
  rcases g with m | (_ | c) <;> rcases e with err | r <;> rfl

/-- A `cache.get` error makes the query pipeline behave exactly like a
miss. -/
theorem handleQuery_get_error (cfg : Config) (ext : Externals)
    (req : Request) (msg : String) (e : Except QueueError Entry)
    (p : Except String Unit) :
    handleQuery cfg ext req (Except.error msg) e p =
      handleQuery cfg ext req (Except.ok none) e p := by
  rcases hq : extractQuery req with _ | q
  · simp [handleQuery, hq]
  · by_cases hne : q = ""
    · simp [handleQuery, hq, hne]
    · rcases hp : ext.parse (ext.splitPreamble q).2 with m | ast
      · simp [handleQuery, hq, hne, hp]
      · by_cases ht : ast.type = "query"
        · simp [handleQuery, hq, hne, hp, ht, afterKey]
        · simp [handleQuery, hq, hne, hp, ht]

/-- The response of the query pipeline does not depend on the outcome of
`cache.put`. -/
theorem handleQuery_response_put (cfg : Config) (ext : Externals)
    (req : Request) (g : Except String (Option Entry))
    (e : Except QueueError Entry) (p p2 : Except String Unit) :
    (handleQuery cfg ext req g e p).response =
      (handleQuery cfg ext req g e p2).response := by
  rcases hq : extractQuery req with _ | q
  · simp [handleQuery, hq]
  · by_cases hne : q = ""
    · simp [handleQuery, hq, hne]
    · rcases hp : ext.parse (ext.splitPreamble q).2 with m | ast
      · simp [handleQuery, hq, hne, hp]
      · by_cases ht : ast.type = "query"
        · simp only [handleQuery, hq, hne, hp, ht, if_true, if_false,
            ite_true, ite_false, if_neg, if_pos]
          exact afterKey_response_put _ _ _ _ _ _ _ _ _
        · simp [handleQuery, hq, hne, hp, ht]

/-- Claim C1: for every request to `/sparql` whose query parses and has
AST type `query`, the key handed to the cache is the MD5 hex digest of
the canonical text (preamble plus re-serialized AST), a NUL byte, and the
accept media type, followed by `.` and the configured compressor id. -/
theorem c1_cache_key (cfg : Config) (ext : Externals) (req : Request)
    (g : Except String (Option Entry)) (e : Except QueueError Entry)
    (p : Except String Unit) (q : String) (ast : SparqlAst)
    (hq : extractQuery req = some q) (hne : q ≠ "")
    (hparse : ext.parse (ext.splitPreamble q).2 = Except.ok ast)
    (htype : ast.type = "query") :
    (handle cfg ext req g e p).cacheGetKey =
      some (ext.md5hex ((ext.splitPreamble q).1 ++ ext.stringify ast ++
          "\x00" ++
          computeAccept cfg.enableQuerySplitting req.acceptHeader) ++
        "." ++ cfg.compressor) := by
  rw [handle_pipeline cfg ext req g e p q ast hq hne hparse htype]
  exact afterKey_cacheGetKey _ _ _ _ _ _ _ _

/-- Claim C1 witness: a concrete GET request evaluated through the
pipeline yields the expected cache key. -/
theorem c1_cache_key_witness :
    extractQuery reqW = some "SELECT x"
    ∧ (handle cfgW extQ reqW (Except.ok none) (Except.ok entryW)
        (Except.ok ())).cacheGetKey =
      some (extQ.md5hex ((extQ.splitPreamble "SELECT x").1 ++
          extQ.stringify ⟨"query", "SELECT x"⟩ ++ "\x00" ++
          computeAccept cfgW.enableQuerySplitting reqW.acceptHeader) ++
        "." ++ cfgW.compressor) :=
  ⟨by decide,
    c1_cache_key cfgW extQ reqW (Except.ok none) (Except.ok entryW)
      (Except.ok ()) "SELECT x" ⟨"query", "SELECT x"⟩ (by decide)
      (by decide) rfl rfl⟩

/-- Claim C2 counterexample: with query splitting enabled, a request
carrying `Accept: application/xml` still gets
`application/sparql-results+json` attached to its job, so the accept
value is not the request's Accept header even though one is present. -/
theorem c2_counterexample :
    reqXml.acceptHeader = some "application/xml"
    ∧ (handle cfgSplit extQ reqXml (Except.ok none) (Except.ok entryW)
        (Except.ok ())).enqueuedJob.map Job.accept =
      some "application/sparql-results+json"
    ∧ ("application/sparql-results+json" : String) ≠ "application/xml" :=
  ⟨rfl, rfl, by decide⟩

/-- Claim C2 (amended): the accept value attached to the job (and used in
the fingerprint) is `computeAccept`; it equals the request's Accept
header only when query splitting is disabled and the header is present
and non-empty, and it is `application/sparql-results+json` in every other
case (splitting enabled, header absent, or header empty). -/
theorem c2_accept_amended (cfg : Config) (ext : Externals) (req : Request)
    (e : Except QueueError Entry) (p : Except String Unit) (q : String)
    (ast : SparqlAst)
    (hq : extractQuery req = some q) (hne : q ≠ "")
    (hparse : ext.parse (ext.splitPreamble q).2 = Except.ok ast)
    (htype : ast.type = "query") :
    (handle cfg ext req (Except.ok none) e p).enqueuedJob.map Job.accept =
      some (computeAccept cfg.enableQuerySplitting req.acceptHeader)
    ∧ (cfg.enableQuerySplitting = true →
        computeAccept cfg.enableQuerySplitting req.acceptHeader =
          defaultAccept)
    ∧ (∀ s, cfg.enableQuerySplitting = false → req.acceptHeader = some s →
        s ≠ "" →
        computeAccept cfg.enableQuerySplitting req.acceptHeader = s)
    ∧ (req.acceptHeader = none →
        computeAccept cfg.enableQuerySplitting req.acceptHeader =
          defaultAccept)
    ∧ computeAccept cfg.enableQuerySplitting (some "") = defaultAccept := by
  refine ⟨?_, ?_, ?_, ?_, ?_⟩
  · rw [handle_pipeline cfg ext req (Except.ok none) e p q ast hq hne
      hparse htype]
    rcases e with err | r <;> rfl
  · intro h
    simp [computeAccept, h]
  · intro s h1 h2 h3
    simp [computeAccept, h1, h2, h3]
  · intro h
    cases hb : cfg.enableQuerySplitting <;> simp [computeAccept, h, hb]
  · cases hb : cfg.enableQuerySplitting <;> simp [computeAccept, hb]

/-- Claim C2 witness: with splitting disabled and no Accept header, the
concrete job carries the computed accept value. -/
theorem c2_accept_amended_witness :
    extractQuery reqW = some "SELECT x"
    ∧ (handle cfgW extQ reqW (Except.ok none) (Except.ok entryW)
        (Except.ok ())).enqueuedJob.map Job.accept =
      some (computeAccept cfgW.enableQuerySplitting reqW.acceptHeader) :=
  ⟨by decide,
    (c2_accept_amended cfgW extQ reqW (Except.ok entryW) (Except.ok ())
      "SELECT x" ⟨"query", "SELECT x"⟩ (by decide) (by decide) rfl rfl).1⟩

/-- Claim C4: a cache hit responds with the stored entry's content type,
the exact stored body, and `X-Cache: hit`; apart from that one appended
header its status, headers and body coincide with the miss response that
served the same entry. -/
theorem c4_hit_indistinguishable (cfg : Config) (ext : Externals)
    (req : Request) (e : Except QueueError Entry) (p p2 : Except String Unit)
    (entry : Entry) (q : String) (ast : SparqlAst)
    (hq : extractQuery req = some q) (hne : q ≠ "")
    (hparse : ext.parse (ext.splitPreamble q).2 = Except.ok ast)
    (htype : ast.type = "query") :
    ((handle cfg ext req (Except.ok (some entry)) e p).response.status = 200
    ∧ (handle cfg ext req (Except.ok (some entry)) e p).response.headers =
        [("Content-Type", entry.contentType), ("X-Cache", "hit")]
    ∧ (handle cfg ext req (Except.ok (some entry)) e p).response.body =
        Body.text entry.body)
    ∧ ((handle cfg ext req (Except.ok (some entry)) e p).response.status =
        (handle cfg ext req (Except.ok none) (Except.ok entry)
          p2).response.status
    ∧ (handle cfg ext req (Except.ok (some entry)) e p).response.headers =
        (handle cfg ext req (Except.ok none) (Except.ok entry)
            p2).response.headers ++ [("X-Cache", "hit")]
    ∧ (handle cfg ext req (Except.ok (some entry)) e p).response.body =
        (handle cfg ext req (Except.ok none) (Except.ok entry)
          p2).response.body) := by
  rw [handle_pipeline cfg ext req (Except.ok (some entry)) e p q ast hq hne
      hparse htype,
    handle_pipeline cfg ext req (Except.ok none) (Except.ok entry) p2 q ast
      hq hne hparse htype]
  exact ⟨⟨rfl, rfl, rfl⟩, rfl, rfl, rfl⟩

/-- Claim C4 witness: concrete hit and miss responses for the same entry
differ exactly by the appended `X-Cache: hit` header. -/
theorem c4_hit_indistinguishable_witness :
    extractQuery reqW = some "SELECT x"
    ∧ (handle cfgW extQ reqW (Except.ok (some entryW)) (Except.ok entryW)
        (Except.ok ())).response.headers =
      (handle cfgW extQ reqW (Except.ok none) (Except.ok entryW)
          (Except.ok ())).response.headers ++ [("X-Cache", "hit")] :=
  ⟨by decide,
    (c4_hit_indistinguishable cfgW extQ reqW (Except.ok entryW)
      (Except.ok ()) (Except.ok ()) entryW "SELECT x"
      ⟨"query", "SELECT x"⟩ (by decide) (by decide) rfl rfl).2.2.1⟩

/-- Claim C5: an error from `cache.get` makes the whole handler behave
exactly as if the lookup had missed (so the job is still enqueued), and
the response never depends on the outcome of the write-behind
`cache.put`. -/
theorem c5_cache_error_resilience (cfg : Config) (ext : Externals)
    (req : Request) (msg : String) (g : Except String (Option Entry))
    (e : Except QueueError Entry) (p p2 : Except String Unit) :
    handle cfg ext req (Except.error msg) e p =
      handle cfg ext req (Except.ok none) e p
    ∧ (handle cfg ext req g e p).response =
        (handle cfg ext req g e p2).response := by
  refine ⟨?_, ?_⟩
  · cases hM : req.method <;>
      simp [handle, hM, handleQuery_get_error cfg ext req msg e p]
  · cases hM : req.method <;> simp [handle, hM] <;>
      exact handleQuery_response_put cfg ext req g e p p2

/-- Claim C8 counterexample: the disallowed-query-type failure responds
with the plain text `Query type not allowed`, not with a JSON
`{message, data?}` object. -/
theorem c8_counterexample :
    (handle cfgW extU reqW (Except.ok none) (Except.ok entryW)
        (Except.ok ())).response =
      ⟨400, [], Body.text "Query type not allowed"⟩
    ∧ Body.text "Query type not allowed" ≠
        Body.json "Query type not allowed" none :=
  ⟨rfl, by decide⟩

/-- Claim C8 (amended): the missing-query and parse-failure responses are
JSON objects of shape `{message, data?}`, while the disallowed-query-type
response is the plain text `Query type not allowed`. -/
theorem c8_error_bodies_amended (cfg : Config) (ext : Externals)
    (req : Request) (g : Except String (Option Entry))
    (e : Except QueueError Entry) (p : Except String Unit)
    (hm : req.method = Method.GET ∨ req.method = Method.POST) :
    ((extractQuery req = none ∨ extractQuery req = some "") →
      (handle cfg ext req g e p).response =
        ⟨400, [], Body.json "Query is required" none⟩)
    ∧ (∀ q msg, extractQuery req = some q → q ≠ "" →
        ext.parse (ext.splitPreamble q).2 = Except.error msg →
        (handle cfg ext req g e p).response =
          ⟨400, [], Body.json "Query parse failed" (some msg)⟩)
    ∧ (∀ q ast, extractQuery req = some q → q ≠ "" →
        ext.parse (ext.splitPreamble q).2 = Except.ok ast →
        ast.type ≠ "query" →
        (handle cfg ext req g e p).response =
          ⟨400, [], Body.text "Query type not allowed"⟩) := by
  rw [handle_GP cfg ext req g e p hm]
  refine ⟨?_, ?_, ?_⟩
  · rintro (h | h) <;> simp [handleQuery, h]
  · intro q msg h1 h2 h3
    simp [handleQuery, h1, h2, h3]
  · intro q ast h1 h2 h3 h4
    simp [handleQuery, h1, h2, h3, h4]

/-- Claim C8 witness: a concrete parse failure yields the JSON error
body. -/
theorem c8_error_bodies_amended_witness :
    (reqW.method = Method.GET ∨ reqW.method = Method.POST)
    ∧ (handle cfgW extE reqW (Except.ok none) (Except.ok entryW)
        (Except.ok ())).response =
      ⟨400, [], Body.json "Query parse failed" (some "syntax error")⟩ :=
  ⟨Or.inl rfl,
    (c8_error_bodies_amended cfgW extE reqW (Except.ok none)
      (Except.ok entryW) (Except.ok ()) (Or.inl rfl)).2.1 "SELECT x"
      "syntax error" (by decide) (by decide) rfl⟩

/-- Claim C9: on a cache miss the enqueued job carries the client's raw
query text unchanged, and replacing the generator and digest (keeping the
preamble splitter and parser) leaves the enqueued job identical — the
canonicalization influences only the cache key. -/
theorem c9_raw_query (cfg : Config) (ext ext2 : Externals) (req : Request)
    (e : Except QueueError Entry) (p : Except String Unit) (q : String)
    (ast : SparqlAst)
    (hq : extractQuery req = some q) (hne : q ≠ "")
    (hparse : ext.parse (ext.splitPreamble q).2 = Except.ok ast)
    (htype : ast.type = "query")
    (hsp : ext2.splitPreamble = ext.splitPreamble)
    (hpa : ext2.parse = ext.parse) :
    (handle cfg ext req (Except.ok none) e p).enqueuedJob.map Job.rawQuery =
      some q
    ∧ (handle cfg ext2 req (Except.ok none) e p).enqueuedJob =
        (handle cfg ext req (Except.ok none) e p).enqueuedJob := by
  have h2 : ext2.parse (ext2.splitPreamble q).2 = Except.ok ast := by
    rw [hsp, hpa]
    exact hparse
  rw [handle_pipeline cfg ext req (Except.ok none) e p q ast hq hne hparse
      htype,
    handle_pipeline cfg ext2 req (Except.ok none) e p q ast hq hne h2 htype]
  constructor
  · rcases e with err | r <;> rfl
  · rcases e with err | r <;> rfl

/-- Claim C9 witness: a concrete miss enqueues the raw query text. -/
theorem c9_raw_query_witness :
    extractQuery reqW = some "SELECT x"
    ∧ (handle cfgW extQ reqW (Except.ok none) (Except.ok entryW)
        (Except.ok ())).enqueuedJob.map Job.rawQuery = some "SELECT x" :=
  ⟨by decide,
    (c9_raw_query cfgW extQ extQ reqW (Except.ok entryW) (Except.ok ())
      "SELECT x" ⟨"query", "SELECT x"⟩ (by decide) (by decide) rfl rfl rfl
      rfl).1⟩

/-- Once the collected rows reach the effective limit, the shard loop
stops and returns them. -/
theorem chunkLoop_done {α : Type} (bHead : List String) (rows : List α)
    (chunk eff fuel offset : Nat) (acc : List α) (h : eff ≤ acc.length) :
    ChunkExec.chunkLoop bHead rows chunk eff fuel offset acc = acc := by
  cases fuel with
  | zero => rfl
  | succ n => simp [ChunkExec.chunkLoop, Nat.not_lt.mpr h]

/-- Invariant of the shard loop: starting from `n` already-collected rows
(which are exactly the first `n` backend rows, with the offset in sync),
the loop ends up with the first `effectiveLimit` backend rows. -/
theorem chunkLoop_take {α : Type} (bHead : List String) (rows : List α)
    (chunk eff : Nat) (hchunk : 1 ≤ chunk) :
    ∀ fuel n, n ≤ eff → n ≤ rows.length → eff - n ≤ fuel →
      ChunkExec.chunkLoop bHead rows chunk eff fuel n (rows.take n) =
        rows.take eff := by
  intro fuel
  induction fuel with
  | zero =>
    intro n h1 h2 h3
    have hn : n = eff := by omega
    subst hn
    rfl
  | succ f ih =>
    intro n h1 h2 h3
    have hlen : (rows.take n).length = n := by
      rw [List.length_take]
      omega
    by_cases hlt : n < eff
    · simp only [ChunkExec.chunkLoop, ChunkExec.backendPage]
      rw [hlen, if_pos hlt]
      have hplen : ((rows.drop n).take (min chunk (eff - n))).length =
          min (min chunk (eff - n)) (rows.length - n) := by
        rw [List.length_take, List.length_drop]
      rw [hplen]
      have hr1 : min chunk (eff - n) ≤ chunk := Nat.min_le_left _ _
      have hr2 : min chunk (eff - n) ≤ eff - n := Nat.min_le_right _ _
      by_cases hshort : rows.length - n < min chunk (eff - n)
      · rw [if_pos (by omega)]
        have h4 : (rows.drop n).take (min chunk (eff - n)) = rows.drop n :=
          List.take_of_length_le (by rw [List.length_drop]; omega)
        rw [h4, List.take_append_drop]
        exact (List.take_of_length_le (by omega)).symm
      · rw [if_neg (by omega)]
        rw [← List.take_add]
        by_cases hbig : chunk ≤ eff - n
        · rw [Nat.min_eq_left hbig]
          exact ih (n + chunk) (by omega) (by omega) (by omega)
        · rw [Nat.min_eq_right (by omega)]
          have hne : n + (eff - n) = eff := by omega
          rw [hne]
          apply chunkLoop_done
          rw [List.length_take]
          omega
    · have hn : n = eff := by omega
      rw [hn]
      exact chunkLoop_done bHead rows chunk eff (f + 1) eff (rows.take eff)
        (by rw [List.length_take]; omega)

/-- Claim C3 (spec-modelled): for a `SELECT` with user limit `L` against a
backend holding `N` rows, the merged response's head is the first shard's
head, its bindings are the first `min(L, maxLimit)` backend rows in shard
order, and the binding count is exactly `min(L, maxLimit, N)`. -/
theorem c3_chunk_merge {α : Type} (bHead : List String) (rows : List α)
    (l maxLimitC maxChunkLimitC : Nat) (hc : 1 ≤ maxChunkLimitC) :
    (ChunkExec.chunkExecute bHead rows l maxLimitC maxChunkLimitC).head =
      bHead
    ∧ (ChunkExec.chunkExecute bHead rows l maxLimitC maxChunkLimitC).bindings
        = rows.take (min l maxLimitC)
    ∧ (ChunkExec.chunkExecute bHead rows l maxLimitC
          maxChunkLimitC).bindings.length =
        min l (min maxLimitC rows.length) := by
  have hb : (ChunkExec.chunkExecute bHead rows l maxLimitC
      maxChunkLimitC).bindings = rows.take (min l maxLimitC) := by
    show ChunkExec.chunkLoop bHead rows (min maxChunkLimitC (min l maxLimitC))
        (min l maxLimitC) (min l maxLimitC) 0 [] = rows.take (min l maxLimitC)
    by_cases h0 : min l maxLimitC = 0
    · rw [h0]
      rfl
    · have h1 : 1 ≤ min maxChunkLimitC (min l maxLimitC) := by omega
      have h2 := chunkLoop_take bHead rows
        (min maxChunkLimitC (min l maxLimitC)) (min l maxLimitC) h1
        (min l maxLimitC) 0 (by omega) (by omega) (by omega)
      simpa using h2
  refine ⟨rfl, hb, ?_⟩
  rw [hb, List.length_take]
  omega

/-- Claim C3 witness: seven backend rows, user limit 9, `maxLimit` 5,
`maxChunkLimit` 2 — the merged bindings are the first five rows. -/
theorem c3_chunk_merge_witness :
    1 ≤ 2
    ∧ ((ChunkExec.chunkExecute ["s"] ([0, 1, 2, 3, 4, 5, 6] : List Nat)
          9 5 2).head = ["s"]
      ∧ (ChunkExec.chunkExecute ["s"] ([0, 1, 2, 3, 4, 5, 6] : List Nat)
            9 5 2).bindings =
          ([0, 1, 2, 3, 4, 5, 6] : List Nat).take (min 9 5)
      ∧ (ChunkExec.chunkExecute ["s"] ([0, 1, 2, 3, 4, 5, 6] : List Nat)
            9 5 2).bindings.length =
          min 9 (min 5 ([0, 1, 2, 3, 4, 5, 6] : List Nat).length)) :=
  ⟨by decide,
    c3_chunk_merge ["s"] ([0, 1, 2, 3, 4, 5, 6] : List Nat) 9 5 2
      (by decide)⟩

end SparqlProxy
